import Mathlib

/-!
Verification of the Arcan session registry (`arcan/api/session/__init__.py`)
and the agent constructor/invoke logic (`arcan/ai/agents/__init__.py`).

The Python code is shallowly embedded: the mutable Python objects (the
per-process list objects used as `chat_history`, the `ArcanAgent` instances,
the `WeakValueDictionary` registry and the two database tables) become an
explicit `ArcanSession` state record, and each Python method becomes a state
transformer.  Python exceptions become `Except PyErr`.
-/

namespace Arcan

/-- Message roles of `langchain_core.messages` (`SystemMessage`,
`HumanMessage`, `AIMessage`) as used by `ArcanAgent.invoke`. -/
inductive Role
  | system
  | human
  | ai
deriving DecidableEq, Repr

/-- One chat message: a role together with its `content` string. -/
structure Msg where
  role : Role
  content : String
deriving DecidableEq, Repr

/-- A conversation transcript: the `chat_history` list of messages. -/
abbrev Transcript := List Msg

/-! ### The serialization pipeline

`store_chat_history` writes `str(pickle.dumps(agent_history))` and
`get_chat_history` reads it back with
`pickle.loads(ast.literal_eval(stored))`.

`pickle` is external library code (not part of this repository); its contract
is that `loads` inverts `dumps` on picklable values.  It is modelled here by a
concrete executable byte codec for transcripts for which that contract is
proved.  `str` applied to a Python `bytes` object and `ast.literal_eval`
applied to the resulting `b'...'` literal are modelled faithfully from
Python's bytes-repr syntax (escape sequences and quote choice included). -/

/-- Unary length encoding of a natural: `n` marker bytes (49) followed by a
terminator byte (48).  Building block of the modelled pickle codec. -/
def encNat (n : Nat) : List Nat :=
  List.replicate n 49 ++ [48]

/-- Decoder matching `encNat`; returns the value and the remaining bytes. -/
def decNat : List Nat → Option (Nat × List Nat)
  | [] => none
  | b :: bs =>
    if b = 48 then some (0, bs)
    else if b = 49 then (decNat bs).map (fun p => (p.1 + 1, p.2))
    else none

/-- Characters are encoded through their code points. -/
def encChar (c : Char) : List Nat :=
  encNat c.toNat

/-- Decoder matching `encChar`. -/
def decChar (bs : List Nat) : Option (Char × List Nat) :=
  (decNat bs).map (fun p => (Char.ofNat p.1, p.2))

/-- Read `n` characters in sequence. -/
def decChars : Nat → List Char → List Nat → Option (List Char × List Nat)
  | 0, acc, bs => some (acc.reverse, bs)
  | n + 1, acc, bs =>
    match decChar bs with
    | none => none
    | some (c, bs1) => decChars n (c :: acc) bs1

/-- Strings are encoded as a character count followed by the characters. -/
def encString (s : String) : List Nat :=
  encNat s.data.length ++ (s.data.map encChar).flatten

/-- Decoder matching `encString`. -/
def decString (bs : List Nat) : Option (String × List Nat) :=
  match decNat bs with
  | none => none
  | some (n, bs1) =>
    match decChars n [] bs1 with
    | none => none
    | some (cs, bs2) => some (String.mk cs, bs2)

/-- Role tags. -/
def encRole : Role → Nat
  | .system => 0
  | .human => 1
  | .ai => 2

/-- Decoder matching `encRole`. -/
def decRole : Nat → Option Role
  | 0 => some .system
  | 1 => some .human
  | 2 => some .ai
  | _ => none

/-- One message: role tag then content. -/
def encMsg (m : Msg) : List Nat :=
  encNat (encRole m.role) ++ encString m.content

/-- Decoder matching `encMsg`. -/
def decMsg (bs : List Nat) : Option (Msg × List Nat) :=
  match decNat bs with
  | none => none
  | some (r, bs1) =>
    match decRole r with
    | none => none
    | some role =>
      match decString bs1 with
      | none => none
      | some (s, bs2) => some (⟨role, s⟩, bs2)

/-- Read `n` messages in sequence. -/
def decMsgs : Nat → List Msg → List Nat → Option (List Msg × List Nat)
  | 0, acc, bs => some (acc.reverse, bs)
  | n + 1, acc, bs =>
    match decMsg bs with
    | none => none
    | some (m, bs1) => decMsgs n (m :: acc) bs1

/-- Modelled from the spec: `pickle.dumps` on a transcript (external to the
repository; the spec only relies on it being inverted by `pickle.loads`).
A transcript is a message count followed by the messages. -/
def pickleDumps (t : Transcript) : List Nat :=
  encNat t.length ++ (t.map encMsg).flatten

/-- Modelled from the spec: `pickle.loads`; reads one serialized transcript
from the front of the byte string and fails on malformed input. -/
def pickleLoads (bs : List Nat) : Option Transcript :=
  match decNat bs with
  | none => none
  | some (n, bs1) =>
    match decMsgs n [] bs1 with
    | none => none
    | some (t, _) => some t

theorem decNat_encNat (n : Nat) (rest : List Nat) :
    decNat (encNat n ++ rest) = some (n, rest) := by
  induction n with
  | zero => rfl
  | succ k ih =>
      have h : encNat (k + 1) ++ rest = 49 :: (encNat k ++ rest) := by
        simp [encNat, List.replicate_succ]
      rw [h]
      simp [decNat, ih]

theorem decChar_encChar (c : Char) (rest : List Nat) :
    decChar (encChar c ++ rest) = some (c, rest) := by
  simp [decChar, encChar, decNat_encNat, Char.ofNat_toNat]

theorem decChars_encChars (cs : List Char) (acc : List Char) (rest : List Nat) :
    decChars cs.length acc ((cs.map encChar).flatten ++ rest)
      = some (acc.reverse ++ cs, rest) := by
  induction cs generalizing acc with
  | nil => simp [decChars]
  | cons c cs ih =>
      have h : ((c :: cs).map encChar).flatten ++ rest
          = encChar c ++ ((cs.map encChar).flatten ++ rest) := by
        simp
      rw [List.length_cons, h]
      simp only [decChars, decChar_encChar]
      rw [ih]
      simp

theorem decString_encString (s : String) (rest : List Nat) :
    decString (encString s ++ rest) = some (s, rest) := by
  have h : encString s ++ rest
      = encNat s.data.length ++ ((s.data.map encChar).flatten ++ rest) := by
    simp [encString]
  rw [decString, h, decNat_encNat]
  simp only [decChars_encChars, List.reverse_nil, List.nil_append]

theorem decRole_encRole (r : Role) : decRole (encRole r) = some r := by
  cases r <;> rfl

theorem decMsg_encMsg (m : Msg) (rest : List Nat) :
    decMsg (encMsg m ++ rest) = some (m, rest) := by
  have h : encMsg m ++ rest
      = encNat (encRole m.role) ++ (encString m.content ++ rest) := by
    simp [encMsg]
  rw [decMsg, h, decNat_encNat]
  simp only [decRole_encRole, decString_encString]

theorem decMsgs_encMsgs (t : List Msg) (acc : List Msg) (rest : List Nat) :
    decMsgs t.length acc ((t.map encMsg).flatten ++ rest)
      = some (acc.reverse ++ t, rest) := by
  induction t generalizing acc with
  | nil => simp [decMsgs]
  | cons m t ih =>
      have h : ((m :: t).map encMsg).flatten ++ rest
          = encMsg m ++ ((t.map encMsg).flatten ++ rest) := by
        simp
      rw [List.length_cons, h]
      simp only [decMsgs, decMsg_encMsg]
      rw [ih]
      simp

/-- The modelled pickle codec satisfies the contract of `pickle`. -/
theorem pickleLoads_pickleDumps (t : Transcript) :
    pickleLoads (pickleDumps t) = some t := by
  have h : pickleDumps t = encNat t.length ++ ((t.map encMsg).flatten ++ []) := by
    simp [pickleDumps]
  rw [pickleLoads, h, decNat_encNat]
  simp only [decMsgs_encMsgs, List.reverse_nil, List.nil_append]

/-! ### `str(bytes)` and `ast.literal_eval`, from Python semantics -/

/-- A byte whose repr inside a single-quoted Python bytes literal is itself:
printable ASCII, not a quote, not a backslash. -/
def SafeByte (b : Nat) : Prop :=
  32 ≤ b ∧ b ≤ 126 ∧ b ≠ 39 ∧ b ≠ 34 ∧ b ≠ 92

instance (b : Nat) : Decidable (SafeByte b) := by
  unfold SafeByte
  infer_instance

/-- Lower-case hexadecimal digit character, as produced by Python's repr. -/
def hexDigitChar (n : Nat) : Char :=
  if n < 10 then Char.ofNat (48 + n) else Char.ofNat (87 + n)

/-- Python repr of one byte inside a bytes literal quoted with quote
character `q` (39 or 34): backslash and the quote character are
backslash-escaped, tab, newline and carriage return use their mnemonic
escapes, other printable ASCII stands for itself, and everything else is a
hexadecimal `\x` escape. -/
def reprByteIn (q : Nat) (b : Nat) : List Char :=
  if b = 92 then [Char.ofNat 92, Char.ofNat 92]
  else if b = q then [Char.ofNat 92, Char.ofNat q]
  else if b = 9 then [Char.ofNat 92, Char.ofNat 116]
  else if b = 10 then [Char.ofNat 92, Char.ofNat 110]
  else if b = 13 then [Char.ofNat 92, Char.ofNat 114]
  else if 32 ≤ b ∧ b ≤ 126 then [Char.ofNat b]
  else [Char.ofNat 92, Char.ofNat 120, hexDigitChar (b / 16 % 16), hexDigitChar (b % 16)]

/-- `str` applied to a Python `bytes` object: the literal `b'...'`.  Python
quotes with a single quote unless the payload contains a single quote and no
double quote, in which case it uses double quotes. -/
def pyReprBytes (bs : List Nat) : String :=
  let q : Nat := if 39 ∈ bs ∧ ¬ 34 ∈ bs then 34 else 39
  String.mk (Char.ofNat 98 :: Char.ofNat q ::
    ((bs.map (reprByteIn q)).flatten ++ [Char.ofNat q]))

/-- Value of a hexadecimal digit character. -/
def hexVal (c : Char) : Option Nat :=
  if 48 ≤ c.toNat ∧ c.toNat ≤ 57 then some (c.toNat - 48)
  else if 97 ≤ c.toNat ∧ c.toNat ≤ 102 then some (c.toNat - 87)
  else if 65 ≤ c.toNat ∧ c.toNat ≤ 70 then some (c.toNat - 55)
  else none

/-- Body of a Python bytes literal quoted with `q`: consume escaped and plain
characters until the closing quote, which must end the input
(`ast.literal_eval` requires the whole string to be one literal). -/
def parseBytesBody (q : Nat) : List Char → Option (List Nat)
  | [] => none
  | c :: cs =>
    if c.toNat = q then
      match cs with
      | [] => some []
      | _ :: _ => none
    else if c.toNat = 92 then
      match cs with
      | [] => none
      | e :: cs1 =>
        if e.toNat = 92 then (parseBytesBody q cs1).map (fun l => 92 :: l)
        else if e.toNat = 39 then (parseBytesBody q cs1).map (fun l => 39 :: l)
        else if e.toNat = 34 then (parseBytesBody q cs1).map (fun l => 34 :: l)
        else if e.toNat = 116 then (parseBytesBody q cs1).map (fun l => 9 :: l)
        else if e.toNat = 110 then (parseBytesBody q cs1).map (fun l => 10 :: l)
        else if e.toNat = 114 then (parseBytesBody q cs1).map (fun l => 13 :: l)
        else if e.toNat = 120 then
          match cs1 with
          | h1 :: h2 :: cs2 =>
            match hexVal h1, hexVal h2 with
            | some v1, some v2 => (parseBytesBody q cs2).map (fun l => (16 * v1 + v2) :: l)
            | _, _ => none
          | _ => none
        else none
    else if 32 ≤ c.toNat ∧ c.toNat ≤ 126 then
      (parseBytesBody q cs).map (fun l => c.toNat :: l)
    else none

/-- `ast.literal_eval` restricted to bytes literals, as exercised by
`get_chat_history`: the string must be exactly `b` followed by a quoted byte
sequence.  Any other input is a parse error (`none`). -/
def pyLiteralEvalBytes (s : String) : Option (List Nat) :=
  match s.data with
  | c :: q :: rest =>
    if c.toNat = 98 ∧ (q.toNat = 39 ∨ q.toNat = 34) then parseBytesBody q.toNat rest
    else none
  | _ => none

theorem char_toNat_ofNat {b : Nat} (h : b ≤ 126) : (Char.ofNat b).toNat = b := by
  have hv : b.isValidChar := Or.inl (by omega)
  rw [Char.ofNat]
  simp [hv, Char.ofNatAux, Char.toNat, UInt32.toNat]

theorem reprByteIn_safe {b : Nat} (h : SafeByte b) :
    reprByteIn 39 b = [Char.ofNat b] := by
  obtain ⟨h1, h2, h3, _, h5⟩ := h
  have h9 : ¬ b = 9 := by omega
  have h10 : ¬ b = 10 := by omega
  have h13 : ¬ b = 13 := by omega
  rw [reprByteIn, if_neg h5, if_neg h3, if_neg h9, if_neg h10, if_neg h13,
    if_pos ⟨h1, h2⟩]

theorem parseBytesBody_repr (bs : List Nat) (h : ∀ b ∈ bs, SafeByte b) :
    parseBytesBody 39 ((bs.map (reprByteIn 39)).flatten ++ [Char.ofNat 39])
      = some bs := by
  induction bs with
  | nil => rfl
  | cons b bs ih =>
      have hb : SafeByte b := h b (List.mem_cons_self b bs)
      obtain ⟨h1, h2, h3, _, h5⟩ := hb
      have hrepr : ((b :: bs).map (reprByteIn 39)).flatten ++ [Char.ofNat 39]
          = Char.ofNat b :: ((bs.map (reprByteIn 39)).flatten ++ [Char.ofNat 39]) := by
        simp [reprByteIn_safe (h b (List.mem_cons_self b bs))]
      have htn : (Char.ofNat b).toNat = b := char_toNat_ofNat h2
      rw [hrepr, parseBytesBody.eq_def]
      simp only [htn, if_neg h3, if_neg h5, if_pos (⟨h1, h2⟩ : 32 ≤ b ∧ b ≤ 126),
        ih (fun x hx => h x (List.mem_cons_of_mem b hx))]
      rfl

/-- On payloads of printable quote-free bytes — which includes everything the
modelled pickle emits — `ast.literal_eval` inverts `str`. -/
theorem pyLiteralEvalBytes_pyReprBytes (bs : List Nat)
    (h : ∀ b ∈ bs, SafeByte b) :
    pyLiteralEvalBytes (pyReprBytes bs) = some bs := by
  have hq : ¬ (39 ∈ bs ∧ ¬ 34 ∈ bs) := by
    rintro ⟨h39, -⟩
    exact (h 39 h39).2.2.1 rfl
  have hb : (Char.ofNat 98).toNat = 98 := by decide
  have h39 : (Char.ofNat 39).toNat = 39 := by decide
  rw [pyReprBytes]
  simp only [if_neg hq]
  rw [pyLiteralEvalBytes.eq_def]
  show (if (Char.ofNat 98).toNat = 98 ∧
          ((Char.ofNat 39).toNat = 39 ∨ (Char.ofNat 39).toNat = 34) then
        parseBytesBody (Char.ofNat 39).toNat
          ((bs.map (reprByteIn 39)).flatten ++ [Char.ofNat 39])
      else none) = some bs
  rw [if_pos ⟨hb, Or.inl h39⟩, h39]
  exact parseBytesBody_repr bs h

theorem encNat_bytes {b : Nat} {n : Nat} (h : b ∈ encNat n) :
    b = 48 ∨ b = 49 := by
  rcases List.mem_append.mp h with h1 | h1
  · exact Or.inr (List.eq_of_mem_replicate h1)
  · simp at h1
    exact Or.inl h1

theorem pickleDumps_safe (t : Transcript) :
    ∀ b ∈ pickleDumps t, SafeByte b := by
  intro b hb
  have h01 : b = 48 ∨ b = 49 := by
    rw [pickleDumps] at hb
    rcases List.mem_append.mp hb with h | h
    · exact encNat_bytes h
    · rw [List.mem_flatten] at h
      obtain ⟨l, hl, hbl⟩ := h
      rw [List.mem_map] at hl
      obtain ⟨m, _, rfl⟩ := hl
      rw [encMsg] at hbl
      rcases List.mem_append.mp hbl with h | h
      · exact encNat_bytes h
      · rw [encString] at h
        rcases List.mem_append.mp h with h | h
        · exact encNat_bytes h
        · rw [List.mem_flatten] at h
          obtain ⟨l, hl, hbl⟩ := h
          rw [List.mem_map] at hl
          obtain ⟨c, _, rfl⟩ := hl
          exact encNat_bytes hbl
  rcases h01 with rfl | rfl <;> decide

/-- `serialize`, as written by `store_chat_history`:
`str(pickle.dumps(transcript))`. -/
def serialize (t : Transcript) : String :=
  pyReprBytes (pickleDumps t)

/-- `deserialize`, as read by `get_chat_history`:
`pickle.loads(ast.literal_eval(s))`; `none` models the exception raised on a
malformed payload. -/
def deserialize (s : String) : Option Transcript :=
  (pyLiteralEvalBytes s).bind pickleLoads

/-! ### The data model

`arcan/api/session/__init__.py` imports its ORM models from
`arcan.api.datamodel.chat_history` and `arcan.api.datamodel.conversation`,
files that are not present in the source tree (only `engine.py` is); the rows
are therefore modelled from the spec. -/

/-- Modelled from the spec: a row of the `chat_history` table
(`arcan/api/datamodel/chat_history.py`, absent from the tree).  Spec §6:
`chat_history(user_id UNIQUE, history BLOB/TEXT, updated_at TIMESTAMP)`; the
session code addresses the user column as `sender` and targets its uniqueness
constraint with `on_conflict_do_update(index_elements=["sender"])`.
Timestamps are naturals (ticks of a monotone clock). -/
structure ChatRow where
  sender : String
  history : String
  updated_at : Nat
deriving DecidableEq, Repr

/-- Modelled from the spec: a row of the `conversation` table
(`arcan/api/datamodel/conversation.py`, absent from the tree).  Spec §6:
`conversation(id PK, user_id, message TEXT, response TEXT, created_at
TIMESTAMP)`; append-only, never mutated. -/
structure ConvRow where
  sender : String
  message : String
  response : String
deriving DecidableEq, Repr

/-- Python exceptions distinguished by the session code. -/
inductive PyErr
  | sqlAlchemyError
  | deserializeError
  | valueError
  | attributeError
deriving DecidableEq, Repr

instance {ε α : Type} [DecidableEq ε] [DecidableEq α] : DecidableEq (Except ε α) :=
  fun a b =>
    match a, b with
    | Except.ok x, Except.ok y =>
        decidable_of_iff (x = y) ⟨fun h => by rw [h], fun h => by injection h⟩
    | Except.error x, Except.error y =>
        decidable_of_iff (x = y) ⟨fun h => by rw [h], fun h => by injection h⟩
    | Except.ok _, Except.error _ => isFalse (fun h => by injection h)
    | Except.error _, Except.ok _ => isFalse (fun h => by injection h)

/-- An `ArcanAgent` object (`arcan/ai/agents/__init__.py`).  Only the fields
the session logic reads are modelled: `chat_history` is a reference into the
heap of Python list objects (`ctxRef`), because `self.chat_history = context`
stores the list object itself, and `user_id` is an optional string
(`user_id: str = None`).  The LLM, tools and executor fields are external. -/
structure ArcanAgent where
  ctxRef : Nat
  user_id : Option String
deriving DecidableEq, Repr

/-- The process state seen by `ArcanSession` plus its environment:

* `listHeap`: the Python list objects used as `chat_history`.  Index 0 is the
  single list created when the default `context: list = []` of
  `ArcanAgent.__init__` was evaluated at function-definition time; every
  default construction aliases it.
* `agentHeap`: the `ArcanAgent` objects, addressed by index.
* `agents`: the `WeakValueDictionary` registry, `user_id` to agent index;
  entries vanish when the interpreter collects a handle, so theorems quantify
  over arbitrary registry contents.
* `chat_history_table`, `conversation_table`: the durable tables.
* `now`: the clock behind `datetime.utcnow()`, advanced by each commit.
* `convCommitFail`, `chatCommitFail`: environment injection of a storage
  failure for the respective commit (`none` means storage is healthy). -/
structure ArcanSession where
  listHeap : List Transcript
  agentHeap : List ArcanAgent
  agents : List (String × Nat)
  chat_history_table : List ChatRow
  conversation_table : List ConvRow
  now : Nat
  convCommitFail : Option PyErr
  chatCommitFail : Option PyErr
deriving DecidableEq, Repr

/-- Read a list object from the heap. -/
def getHeapList (st : ArcanSession) (r : Nat) : Transcript :=
  st.listHeap.getD r []

/-- Overwrite a list object in place (Python list mutation). -/
def setHeapList (st : ArcanSession) (r : Nat) (t : Transcript) : ArcanSession :=
  { st with listHeap := st.listHeap.set r t }

/-- Read an agent object from the heap. -/
def getAgent (st : ArcanSession) (a : Nat) : ArcanAgent :=
  st.agentHeap.getD a ⟨0, none⟩

/-- Allocate a fresh list object. -/
def allocList (st : ArcanSession) (t : Transcript) : Nat × ArcanSession :=
  (st.listHeap.length, { st with listHeap := st.listHeap ++ [t] })

/-- Allocate a fresh agent object. -/
def allocAgent (st : ArcanSession) (ag : ArcanAgent) : Nat × ArcanSession :=
  (st.agentHeap.length, { st with agentHeap := st.agentHeap ++ [ag] })

/-- `provided_agent.user_id = user_id`: mutate the agent object in place. -/
def setAgentUser (st : ArcanSession) (a : Nat) (uid : String) : ArcanSession :=
  { st with agentHeap := st.agentHeap.set a { getAgent st a with user_id := some uid } }

/-- `self.agents.get(user_id)` on the weak-value registry. -/
def lookupAgent (st : ArcanSession) (uid : String) : Option Nat :=
  (st.agents.find? (fun p => p.1 == uid)).map (fun p => p.2)

/-- `self.agents[user_id] = a`: dictionary assignment. -/
def registrySet (st : ArcanSession) (uid : String) (a : Nat) : ArcanSession :=
  { st with agents := (uid, a) :: st.agents.filter (fun p => ¬ p.1 == uid) }

/-- `ArcanAgent.__init__` (`arcan/ai/agents/__init__.py` lines 57-72),
restricted to the fields the session logic uses.  `context = none` is a call
that omits the `context` argument: Python evaluated the default
`context: list = []` once, so `self.chat_history = context` aliases the shared
list object at heap index 0.  `context = some t` (the
`ArcanAgent(context=chat_history, ...)` call) stores the freshly built list
returned by `get_chat_history`, modelled as a fresh allocation. -/
def mkArcanAgent (st : ArcanSession) (context : Option Transcript)
    (user_id : Option String) : Nat × ArcanSession :=
  match context with
  | none => allocAgent st ⟨0, user_id⟩
  | some t =>
      let p := allocList st t
      allocAgent p.2 ⟨p.1, user_id⟩

/-- `ArcanSession.get_chat_history` (session lines 117-136): query the rows
with this `sender`, `ORDER BY updated_at ASC` (ties keep table order), return
`[]` when there is no row, otherwise deserialize the first row's payload.
There is no exception handler here: a malformed payload raises
(`Except.error`), it is not downgraded to an empty list. -/
def ArcanSession.get_chat_history (st : ArcanSession) (uid : String) :
    Except PyErr Transcript :=
  let rows := List.insertionSort (fun a b => a.updated_at ≤ b.updated_at)
    (st.chat_history_table.filter (fun r => r.sender == uid))
  match rows with
  | [] => Except.ok []
  | r :: _ =>
    match deserialize r.history with
    | some t => Except.ok t
    | none => Except.error PyErr.deserializeError

/-- The `try: chat_history = self.get_chat_history(user_id) except Exception`
block of `get_or_create_agent`: a load failure leaves the initial
`chat_history = []`. -/
def chatHistoryOrEmpty (st : ArcanSession) (uid : String) : Transcript :=
  match st.get_chat_history uid with
  | Except.ok h => h
  | Except.error _ => []

/-- `ArcanSession.get_or_create_agent` (session lines 30-71).  With no
provided agent: look up the weak registry, load the history (errors
downgraded to `[]`), then the `if/elif/elif` chain — the four cases of the
match mirror the three explicit branches plus the unhandled
`agent is not None and not chat_history` combination, where no branch fires
and the `agent` variable still holds the registry lookup result.  Afterwards
`self.agents[user_id] = agent; return agent`.  With a provided agent: rebind
its `user_id`, register it, return it. -/
def ArcanSession.get_or_create_agent (st : ArcanSession) (uid : String)
    (provided_agent : Option Nat) : Option Nat × ArcanSession :=
  match provided_agent with
  | none =>
    let agent0 := lookupAgent st uid
    let ch := chatHistoryOrEmpty st uid
    let res :=
      match agent0, ch with
      | some a, _ :: _ => (some a, st)
      | none, h :: hs =>
          let p := mkArcanAgent st (some (h :: hs)) (some uid)
          (some p.1, p.2)
      | none, [] =>
          let p := mkArcanAgent st none (some uid)
          (some p.1, p.2)
      | some a, [] => (some a, st)
    match res with
    | (some a, st1) => (some a, registrySet st1 uid a)
    | (none, st1) => (none, st1)
  | some p =>
    let st1 := setAgentUser st p uid
    (some p, registrySet st1 uid p)

/-- `ArcanSession.store_message` (session lines 73-85): append one
`Conversation` row and commit; a storage failure during the transaction
raises and leaves the table unchanged (the transactional unit rolls back). -/
def ArcanSession.store_message (st : ArcanSession) (uid body response : String) :
    Except PyErr ArcanSession :=
  match st.convCommitFail with
  | some e => Except.error e
  | none =>
      Except.ok { st with
        conversation_table := st.conversation_table ++ [⟨uid, body, response⟩],
        now := st.now + 1 }

/-- Effect on the `chat_history` table of the single
`INSERT ... ON CONFLICT (sender) DO UPDATE` statement issued by
`store_chat_history`: insert a row when no row matches the conflict target
(the spec-modelled uniqueness constraint on `sender`), otherwise update
`history` and `updated_at` of the matching row. -/
def upsertChatTable (table : List ChatRow) (uid h : String) (n : Nat) : List ChatRow :=
  if table.any (fun r => r.sender == uid) then
    table.map (fun r =>
      if r.sender == uid then { r with history := h, updated_at := n } else r)
  else
    table ++ [⟨uid, h, n⟩]

/-- `ArcanSession.store_chat_history` (session lines 87-115): serialize the
transcript with `str(pickle.dumps(...))` and execute the upsert statement,
then commit.  A storage failure raises and leaves the table unchanged. -/
def ArcanSession.store_chat_history (st : ArcanSession) (uid : String)
    (agent_history : Transcript) : Except PyErr ArcanSession :=
  match st.chatCommitFail with
  | some e => Except.error e
  | none =>
      let h := serialize agent_history
      Except.ok { st with
        chat_history_table := upsertChatTable st.chat_history_table uid h st.now,
        now := st.now + 1 }

/-- `ArcanAgent.invoke` (`arcan/ai/agents/__init__.py` lines 110-135) with the
two external calls abstracted: `route_text` is what `semantic_layer` returns
for this query and `output` is the `AgentExecutor` response.  An empty
`input` is falsy, so `inputs.get("input")` fails the guard and a `ValueError`
is raised.  Otherwise the agent's `chat_history` list is extended in place
with the system and human messages, the executor runs, and the AI message is
appended. -/
def ArcanAgent.invoke (route_text output : String) (st : ArcanSession)
    (a : Nat) (input : String) : Except PyErr (String × ArcanSession) :=
  if input = "" then Except.error PyErr.valueError
  else
    let r := (getAgent st a).ctxRef
    let ctx1 := getHeapList st r ++ [⟨Role.system, route_text⟩, ⟨Role.human, input⟩]
    let st1 := setHeapList st r ctx1
    let ctx2 := ctx1 ++ [⟨Role.ai, output⟩]
    Except.ok (output, setHeapList st1 r ctx2)

/-- `run_agent` (session lines 139-151).  `get_response` abstracts the
inference call `agent.get_response(user_content=query)`: it receives the
handle's current `chat_history` and the query and either returns the response
together with the updated history, or raises.  (The `ArcanAgent` class in the
tree defines `invoke`; `get_response` appears only on the commented-out
variant, whose read-invoke-extend shape this oracle follows; the spec treats
it as the external inference call.)  The `try` block around the two store
calls catches exactly `SQLAlchemyError`, rolls back and still returns the
response; any other exception, and any inference exception, propagates.  The
result pairs what the caller sees with the final process state. -/
def run_agent (get_response : Transcript → String → Except PyErr (String × Transcript))
    (st : ArcanSession) (query : String) (uid : String) :
    Except PyErr String × ArcanSession :=
  match st.get_or_create_agent uid none with
  | (none, st1) => (Except.error PyErr.attributeError, st1)
  | (some a, st1) =>
    let r := (getAgent st1 a).ctxRef
    match get_response (getHeapList st1 r) query with
    | Except.error e => (Except.error e, st1)
    | Except.ok (resp, ctx) =>
      let st2 := setHeapList st1 r ctx
      match st2.store_message uid query resp with
      | Except.error e =>
          if e = PyErr.sqlAlchemyError then (Except.ok resp, st2)
          else (Except.error e, st2)
      | Except.ok st3 =>
        match st3.store_chat_history uid (getHeapList st3 r) with
        | Except.error e =>
            if e = PyErr.sqlAlchemyError then (Except.ok resp, st3)
            else (Except.error e, st3)
        | Except.ok st4 => (Except.ok resp, st4)

/-! ### Shared helper definitions for the theorems -/

/-- The rows of the `chat_history` table belonging to `uid`. -/
def rowsFor (st : ArcanSession) (uid : String) : List ChatRow :=
  st.chat_history_table.filter (fun r => r.sender == uid)

/-- A sequence of `store_chat_history` calls for one user, threading the
state and propagating the first storage failure. -/
def storeChatFold (uid : String) : ArcanSession → List Transcript → Except PyErr ArcanSession
  | st, [] => Except.ok st
  | st, t :: ts =>
    match st.store_chat_history uid t with
    | Except.error e => Except.error e
    | Except.ok st1 => storeChatFold uid st1 ts

/-- A fresh interpreter state: the only live object is the shared default
context list created when `ArcanAgent.__init__` was defined; registry, heaps
and tables are empty and storage is healthy. -/
def initState : ArcanSession :=
  { listHeap := [[]], agentHeap := [], agents := [],
    chat_history_table := [], conversation_table := [],
    now := 0, convCommitFail := none, chatCommitFail := none }

/-- A state with a live registered handle for `"u"` and no persisted row. -/
def stLiveEmpty : ArcanSession :=
  { initState with agentHeap := [⟨0, some "u"⟩], agents := [("u", 0)] }

/-- A state whose persisted row for `"u"` holds a payload that is not a valid
bytes literal, so deserialization fails. -/
def stBadPayload : ArcanSession :=
  { initState with chat_history_table := [⟨"u", "garbage", 0⟩] }

/-- State after `get_or_create_agent("alice")` on a fresh interpreter:
agent 0 exists, default-constructed, hence aliasing list object 0. -/
def stAlice : ArcanSession :=
  (initState.get_or_create_agent "alice" none).2

/-- State after alice's agent ran one `invoke` turn for input `"hi"`, with
`semantic_layer` returning `"route"` and the executor returning `"hello"`. -/
def stAliceTurn : ArcanSession :=
  match ArcanAgent.invoke "route" "hello" stAlice 0 "hi" with
  | Except.ok p => p.2
  | Except.error _ => stAlice

/-- State with both alice's agent 0 and bob's agent 1 live, both
default-constructed before either ran a turn. -/
def stBoth : ArcanSession :=
  (stAlice.get_or_create_agent "bob" none).2

/-- `stBoth` after alice's agent 0 ran one `invoke` turn. -/
def stBothTurn : ArcanSession :=
  match ArcanAgent.invoke "route" "hello" stBoth 0 "hi" with
  | Except.ok p => p.2
  | Except.error _ => stBoth

/-- An inference oracle that always succeeds with response `"ok"` and leaves
the history unchanged. -/
def inferOk : Transcript → String → Except PyErr (String × Transcript) :=
  fun ctx _ => Except.ok ("ok", ctx)

/-- An inference oracle that always raises a non-storage error. -/
def inferFail : Transcript → String → Except PyErr (String × Transcript) :=
  fun _ _ => Except.error PyErr.valueError

/-- A fresh state whose history-store commits fail with `SQLAlchemyError`. -/
def stHistDown : ArcanSession :=
  { initState with chatCommitFail := some PyErr.sqlAlchemyError }

/-- States of the double-registration trace behind the `user_id`-mismatch
counterexample: a persisted row for `"u"` and one externally constructed
handle (`ArcanAgent()`, no `user_id`). -/
def stReg0 : ArcanSession :=
  { initState with
    chat_history_table := [⟨"u", serialize [⟨Role.human, ""⟩], 0⟩],
    agentHeap := [⟨0, none⟩] }

/-- After `get_or_create_agent("u", handle)`: the handle is rebound to `"u"`
and registered under `"u"`. -/
def stReg1 : ArcanSession :=
  (stReg0.get_or_create_agent "u" (some 0)).2

/-- After `get_or_create_agent("v", handle)` with the same handle: it is
rebound to `"v"` and registered under `"v"`, while the `"u"` entry still
references it. -/
def stReg2 : ArcanSession :=
  (stReg1.get_or_create_agent "v" (some 0)).2

instance : IsTotal ChatRow (fun a b => a.updated_at ≤ b.updated_at) :=
  ⟨fun a b => Nat.le_total a.updated_at b.updated_at⟩

instance : IsTrans ChatRow (fun a b => a.updated_at ≤ b.updated_at) :=
  ⟨fun _ _ _ hab hbc => Nat.le_trans hab hbc⟩

/-! ### Theorems -/

/-- C3.  The round-trip law: deserializing the serialized form of any
transcript, through `str(pickle.dumps(T))` and
`pickle.loads(ast.literal_eval(s))`, yields the transcript back. -/
theorem deserialize_serialize (t : Transcript) :
    deserialize (serialize t) = some t := by
  rw [serialize, deserialize, pyLiteralEvalBytes_pyReprBytes _ (pickleDumps_safe t)]
  simp [pickleLoads_pickleDumps]

/-- Helper: with no provided agent, `get_or_create_agent` always returns a
handle (never `None`) and touches neither the tables, the failure flags nor
the clock. -/
theorem goca_frame (st : ArcanSession) (uid : String) :
    ∃ a st1, st.get_or_create_agent uid none = (some a, st1) ∧
      st1.chat_history_table = st.chat_history_table ∧
      st1.conversation_table = st.conversation_table ∧
      st1.convCommitFail = st.convCommitFail ∧
      st1.chatCommitFail = st.chatCommitFail ∧
      st1.now = st.now := by
  unfold ArcanSession.get_or_create_agent
  rcases hl : lookupAgent st uid with _ | a <;>
    rcases hc : chatHistoryOrEmpty st uid with _ | ⟨m, ms⟩ <;>
      simp [hl, hc, mkArcanAgent, allocAgent, allocList, registrySet] <;>
        exact ⟨_, _, ⟨rfl, rfl⟩, rfl, rfl, rfl, rfl, rfl⟩

/-- C1 (amended).  In a state whose registry holds a live handle for
`user_id` while the persisted history comes back empty, no branch of the
`if/elif` chain fires, but the fall-through still returns the live handle
held by the `agent` variable (re-registering it) — not `None`. -/
theorem get_or_create_agent_live_empty_returns_live (st : ArcanSession)
    (uid : String) (a : Nat)
    (hlive : lookupAgent st uid = some a)
    (hempty : chatHistoryOrEmpty st uid = []) :
    st.get_or_create_agent uid none = (some a, registrySet st uid a) := by
  simp [ArcanSession.get_or_create_agent, hlive, hempty]

/-- Witness for C1's amended theorem at the concrete state `stLiveEmpty`. -/
theorem get_or_create_agent_live_empty_returns_live_w :
    stLiveEmpty.get_or_create_agent "u" none = (some 0, registrySet stLiveEmpty "u" 0) :=
  get_or_create_agent_live_empty_returns_live stLiveEmpty "u" 0 (by decide) (by decide)

/-- C1 (counterexample to the claim as stated).  At `stLiveEmpty` — live
handle for `"u"`, empty persisted history — `get_or_create_agent` does not
return `None`. -/
theorem get_or_create_agent_live_empty_not_none :
    (stLiveEmpty.get_or_create_agent "u" none).1 ≠ none := by
  decide

/-- C7.  `get_or_create_agent` with no provided handle never raises: it
always returns a handle, and when the history load raises it behaves exactly
as the empty-history branches (reuse the live handle if one is cached, else
construct a default agent). -/
theorem get_or_create_agent_never_raises (st : ArcanSession) (uid : String) :
    ((st.get_or_create_agent uid none).1).isSome = true ∧
    (∀ e, st.get_chat_history uid = Except.error e →
      st.get_or_create_agent uid none =
        match lookupAgent st uid with
        | some a0 => (some a0, registrySet st uid a0)
        | none =>
            (some (mkArcanAgent st none (some uid)).1,
             registrySet (mkArcanAgent st none (some uid)).2 uid
               (mkArcanAgent st none (some uid)).1)) := by
  constructor
  · obtain ⟨a, st1, hga, -⟩ := goca_frame st uid
    rw [hga]
    rfl
  · intro e he
    have hch : chatHistoryOrEmpty st uid = [] := by
      rw [chatHistoryOrEmpty, he]
    rcases hl : lookupAgent st uid with _ | a0 <;>
      simp [ArcanSession.get_or_create_agent, hl, hch]

/-- Witness for C7 at the concrete state `stBadPayload`, whose history load
raises a deserialization error. -/
theorem get_or_create_agent_never_raises_w :
    stBadPayload.get_or_create_agent "u" none =
      (some (mkArcanAgent stBadPayload none (some "u")).1,
       registrySet (mkArcanAgent stBadPayload none (some "u")).2 "u"
         (mkArcanAgent stBadPayload none (some "u")).1) := by
  have h := (get_or_create_agent_never_raises stBadPayload "u").2
    PyErr.deserializeError (by decide)
  rw [h]
  decide

/-- C4 (counterexample to the claim as stated).  At `stBadPayload` the row
exists but its payload does not deserialize; `get_chat_history` raises
instead of returning the empty list. -/
theorem get_chat_history_bad_payload_raises :
    stBadPayload.get_chat_history "u" ≠ Except.ok []
      ∧ stBadPayload.get_chat_history "u" = Except.error PyErr.deserializeError := by
  decide

/-- C4 (amended).  `get_chat_history` queries the rows for the user ordered
by `updated_at` ascending and deserializes the first (oldest) one; it returns
the empty list when no row exists, but a failing deserialization raises a
`deserializeError` rather than returning the empty list. -/
theorem get_chat_history_spec (st : ArcanSession) (uid : String) :
    (rowsFor st uid = [] → st.get_chat_history uid = Except.ok []) ∧
    (rowsFor st uid ≠ [] →
      ∃ r, r ∈ rowsFor st uid ∧
        (∀ s ∈ rowsFor st uid, r.updated_at ≤ s.updated_at) ∧
        st.get_chat_history uid =
          (match deserialize r.history with
           | some t => Except.ok t
           | none => Except.error PyErr.deserializeError)) := by
  have hperm := List.perm_insertionSort
    (fun a b : ChatRow => a.updated_at ≤ b.updated_at) (rowsFor st uid)
  have hsort := List.sorted_insertionSort
    (fun a b : ChatRow => a.updated_at ≤ b.updated_at) (rowsFor st uid)
  constructor
  · intro h
    unfold ArcanSession.get_chat_history
    rw [show st.chat_history_table.filter (fun r => r.sender == uid)
        = rowsFor st uid from rfl, h]
    rfl
  · intro h
    unfold ArcanSession.get_chat_history
    rw [show st.chat_history_table.filter (fun r => r.sender == uid)
        = rowsFor st uid from rfl]
    rcases hrows : List.insertionSort
        (fun a b : ChatRow => a.updated_at ≤ b.updated_at) (rowsFor st uid)
      with _ | ⟨r, rest⟩
    · rw [hrows] at hperm
      exact absurd hperm.symm.eq_nil h
    · rw [hrows] at hperm hsort
      refine ⟨r, ?_, ?_, ?_⟩
      · exact hperm.subset (List.mem_cons_self r rest)
      · intro s hs
        have hs2 : s ∈ r :: rest := hperm.symm.subset hs
        rcases List.mem_cons.mp hs2 with rfl | hs3
        · exact Nat.le_refl _
        · exact (List.sorted_cons.mp hsort).1 s hs3
      · rfl

/-- Witness for C4's amended theorem: the no-row branch at `initState` and
the bad-payload branch at `stBadPayload`. -/
theorem get_chat_history_spec_w :
    initState.get_chat_history "u" = Except.ok [] ∧
    ∃ r, r ∈ rowsFor stBadPayload "u" ∧
      (∀ s ∈ rowsFor stBadPayload "u", r.updated_at ≤ s.updated_at) ∧
      stBadPayload.get_chat_history "u" =
        (match deserialize r.history with
         | some t => Except.ok t
         | none => Except.error PyErr.deserializeError) :=
  ⟨(get_chat_history_spec initState "u").1 (by decide),
   (get_chat_history_spec stBadPayload "u").2 (by decide)⟩

/-- Helper: `store_message` on healthy storage appends one row and commits. -/
theorem store_message_of_none (st : ArcanSession) (h : st.convCommitFail = none)
    (uid b r : String) :
    st.store_message uid b r = Except.ok { st with
      conversation_table := st.conversation_table ++ [⟨uid, b, r⟩],
      now := st.now + 1 } := by
  simp [ArcanSession.store_message, h]

/-- Helper: `store_message` raises when the commit fails. -/
theorem store_message_of_fail (st : ArcanSession) (e : PyErr)
    (h : st.convCommitFail = some e) (uid b r : String) :
    st.store_message uid b r = Except.error e := by
  simp [ArcanSession.store_message, h]

/-- Helper: `store_chat_history` on healthy storage runs the upsert. -/
theorem store_chat_history_of_none (st : ArcanSession) (h : st.chatCommitFail = none)
    (uid : String) (t : Transcript) :
    st.store_chat_history uid t = Except.ok { st with
      chat_history_table := upsertChatTable st.chat_history_table uid (serialize t) st.now,
      now := st.now + 1 } := by
  simp [ArcanSession.store_chat_history, h]

/-- Helper: `store_chat_history` raises when the commit fails. -/
theorem store_chat_history_of_fail (st : ArcanSession) (e : PyErr)
    (h : st.chatCommitFail = some e) (uid : String) (t : Transcript) :
    st.store_chat_history uid t = Except.error e := by
  simp [ArcanSession.store_chat_history, h]

/-- C2.  When inference succeeds with response `resp`, `run_agent` returns
`resp` to the caller even if `store_message` or `store_chat_history` then
raises a storage error (`SQLAlchemyError`): the error is caught by the `try`
block and not propagated. -/
theorem run_agent_ok_despite_storage_error
    (f : Transcript → String → Except PyErr (String × Transcript))
    (st : ArcanSession) (uid query resp : String)
    (hmsg : st.convCommitFail = none ∨ st.convCommitFail = some PyErr.sqlAlchemyError)
    (hhist : st.chatCommitFail = none ∨ st.chatCommitFail = some PyErr.sqlAlchemyError)
    (hinf : ∀ ctx, ∃ ctx2, f ctx query = Except.ok (resp, ctx2)) :
    (run_agent f st query uid).1 = Except.ok resp := by
  obtain ⟨a, st1, hga, hcht, hcvt, hcf, hhf, hnow⟩ := goca_frame st uid
  obtain ⟨ctx2, hf⟩ := hinf (getHeapList st1 (getAgent st1 a).ctxRef)
  rcases hmsg with hm | hm <;> rcases hhist with hh | hh <;>
    simp [run_agent, hga, hf, ArcanSession.store_message,
      ArcanSession.store_chat_history, setHeapList, hcf, hhf, hm, hh]

/-- Witness for C2 at a fresh state whose history-store commit raises
`SQLAlchemyError`, with an oracle that answers `"ok"`. -/
theorem run_agent_ok_despite_storage_error_w :
    (run_agent inferOk stHistDown "q" "u").1 = Except.ok "ok" :=
  run_agent_ok_despite_storage_error inferOk stHistDown "u" "q" "ok"
    (Or.inl rfl) (Or.inr rfl) (fun ctx => ⟨ctx, rfl⟩)

/-- C8.  When the inference call raises, `run_agent` propagates the exception
unmodified (it is outside the `try` block and not retried), and neither store
call runs: both tables are unchanged. -/
theorem run_agent_propagates_inference_error
    (f : Transcript → String → Except PyErr (String × Transcript))
    (st : ArcanSession) (uid query : String) (e : PyErr)
    (hinf : ∀ ctx, f ctx query = Except.error e) :
    (run_agent f st query uid).1 = Except.error e ∧
    (run_agent f st query uid).2.chat_history_table = st.chat_history_table ∧
    (run_agent f st query uid).2.conversation_table = st.conversation_table := by
  obtain ⟨a, st1, hga, hcht, hcvt, -, -, -⟩ := goca_frame st uid
  have hf := hinf (getHeapList st1 (getAgent st1 a).ctxRef)
  simp [run_agent, hga, hf, hcht, hcvt]

/-- Witness for C8 with an oracle that always raises a `ValueError`. -/
theorem run_agent_propagates_inference_error_w :
    (run_agent inferFail initState "q" "u").1 = Except.error PyErr.valueError ∧
    (run_agent inferFail initState "q" "u").2.chat_history_table
      = initState.chat_history_table ∧
    (run_agent inferFail initState "q" "u").2.conversation_table
      = initState.conversation_table :=
  run_agent_propagates_inference_error inferFail initState "u" "q"
    PyErr.valueError (fun _ => rfl)

/-- Helper: updating the rows matching `uid` commutes with filtering them. -/
theorem filter_map_upsert (l : List ChatRow) (uid h : String) (n : Nat) :
    ((l.map fun r =>
        if r.sender == uid then { r with history := h, updated_at := n } else r).filter
      fun r => r.sender == uid)
    = (l.filter fun r => r.sender == uid).map
        fun r => { r with history := h, updated_at := n } := by
  induction l with
  | nil => rfl
  | cons r l ih =>
      by_cases hr : r.sender = uid
      · simp [hr]
        simpa using ih
      · simp [hr]
        simpa using ih

/-- Helper: under the uniqueness constraint (at most one row per `sender`),
one upsert leaves exactly one row for `uid`, holding the new payload. -/
theorem rowsFor_upsertChatTable (l : List ChatRow) (uid h : String) (n : Nat)
    (hinv : (l.filter fun r => r.sender == uid).length ≤ 1) :
    (upsertChatTable l uid h n).filter (fun r => r.sender == uid)
      = [⟨uid, h, n⟩] := by
  unfold upsertChatTable
  by_cases hany : l.any (fun r => r.sender == uid) = true
  · rw [if_pos hany, filter_map_upsert]
    obtain ⟨r, hr, hpr⟩ := List.any_eq_true.mp hany
    have hmem : r ∈ l.filter (fun r => r.sender == uid) := List.mem_filter.mpr ⟨hr, hpr⟩
    rcases hfe : l.filter (fun r => r.sender == uid) with _ | ⟨x, xs⟩
    · rw [hfe] at hmem
      cases hmem
    · rw [hfe] at hinv
      have hxs : xs = [] := by
        have h2 : xs.length + 1 ≤ 1 := by simpa using hinv
        exact List.eq_nil_of_length_eq_zero (by omega)
      subst hxs
      have hx : x.sender = uid := by
        have hx1 : x ∈ l.filter (fun r => r.sender == uid) := by
          rw [hfe]
          exact List.mem_cons_self x []
        exact eq_of_beq (List.mem_filter.mp hx1).2
      rw [hfe]
      cases x
      simpa using hx
  · rw [if_neg hany, List.filter_append]
    have h1 : l.filter (fun r => r.sender == uid) = [] := by
      rw [List.filter_eq_nil_iff]
      intro x hx
      simp [List.any_eq_true] at hany
      simp [hany x hx]
    rw [h1]
    simp

/-- Helper: one `store_chat_history` call on healthy storage, under the
uniqueness constraint: it commits, and afterwards exactly one row for `uid`
exists, holding the serialized transcript stamped with the call time. -/
theorem rowsFor_store_chat (st : ArcanSession) (uid : String) (t : Transcript)
    (hok : st.chatCommitFail = none) (hinv : (rowsFor st uid).length ≤ 1) :
    ∃ st1, st.store_chat_history uid t = Except.ok st1 ∧
      rowsFor st1 uid = [⟨uid, serialize t, st.now⟩] ∧
      st1.chatCommitFail = none := by
  refine ⟨_, store_chat_history_of_none st hok uid t, ?_, hok⟩
  exact rowsFor_upsertChatTable st.chat_history_table uid (serialize t) st.now hinv

/-- Helper: the fold of upserts, by induction over the earlier calls. -/
theorem storeChatFold_last (uid : String) (ts : List Transcript) :
    ∀ st : ArcanSession, st.chatCommitFail = none →
      (rowsFor st uid).length ≤ 1 → ∀ t,
      ∃ st1, storeChatFold uid st (ts ++ [t]) = Except.ok st1 ∧
        ∃ n, rowsFor st1 uid = [⟨uid, serialize t, n⟩] := by
  induction ts with
  | nil =>
      intro st hok hinv t
      obtain ⟨st1, hs, hrows, -⟩ := rowsFor_store_chat st uid t hok hinv
      refine ⟨st1, ?_, st.now, hrows⟩
      simp [storeChatFold, hs]
  | cons t0 ts ih =>
      intro st hok hinv t
      obtain ⟨st1, hs, hrows, hflag⟩ := rowsFor_store_chat st uid t0 hok hinv
      have hinv1 : (rowsFor st1 uid).length ≤ 1 := by
        rw [hrows]
        exact Nat.le_refl 1
      obtain ⟨st2, hs2, hlast⟩ := ih st1 hflag hinv1 t
      refine ⟨st2, ?_, hlast⟩
      simp [storeChatFold, hs, hs2]

/-- C6.  `store_chat_history` is the single upsert statement keyed by the
uniqueness constraint on the user column, and repeated calls are idempotent:
starting from any healthy state satisfying the constraint, after any sequence
of upserts for `uid` the persisted row's `history` field is exactly the
serialization of the last call's transcript. -/
theorem store_chat_history_upsert_last_write_wins (st : ArcanSession)
    (uid : String) (ts : List Transcript) (t : Transcript)
    (hok : st.chatCommitFail = none)
    (hinv : (rowsFor st uid).length ≤ 1) :
    ∃ st1, storeChatFold uid st (ts ++ [t]) = Except.ok st1 ∧
      (rowsFor st1 uid).map (fun r => r.history) = [serialize t] := by
  obtain ⟨st1, hs, n, hrows⟩ := storeChatFold_last uid ts st hok hinv t
  refine ⟨st1, hs, ?_⟩
  rw [hrows]
  rfl

/-- Witness for C6: two calls on a fresh state, first the empty transcript
then a one-message transcript; the row ends at the latter's serialization. -/
theorem store_chat_history_upsert_last_write_wins_w :
    ∃ st1, storeChatFold "u" initState ([[]] ++ [[⟨Role.human, ""⟩]]) = Except.ok st1 ∧
      (rowsFor st1 "u").map (fun r => r.history) = [serialize [⟨Role.human, ""⟩]] :=
  store_chat_history_upsert_last_write_wins initState "u" [[]] [⟨Role.human, ""⟩]
    rfl (by decide)

/-- Helper: after a dictionary assignment the registry resolves the key to
the assigned handle. -/
theorem lookupAgent_registrySet (st : ArcanSession) (uid : String) (a : Nat) :
    lookupAgent (registrySet st uid a) uid = some a := by
  simp [lookupAgent, registrySet, List.find?_cons_of_pos]

/-- Helper: registry assignment does not touch the agent heap. -/
theorem getAgent_registrySet (st : ArcanSession) (uid : String) (a x : Nat) :
    getAgent (registrySet st uid a) x = getAgent st x := rfl

/-- Helper: a freshly allocated agent object reads back as constructed. -/
theorem getAgent_allocAgent (st : ArcanSession) (ag : ArcanAgent) :
    getAgent (allocAgent st ag).2 (allocAgent st ag).1 = ag := by
  simp [getAgent, allocAgent, List.getD, List.getElem?_concat_length]

/-- Helper: rebinding `user_id` of a live agent object. -/
theorem getAgent_setAgentUser (st : ArcanSession) (p : Nat) (uid : String)
    (h : p < st.agentHeap.length) :
    getAgent (setAgentUser st p uid) p = { getAgent st p with user_id := some uid } := by
  rw [getAgent, setAgentUser]
  simp [List.getD, List.getElem?_set_self, h]

/-- C9 (counterexample to the claim as stated).  At `stReg2` — reached by
registering one handle under `"u"` and then under `"v"`, with a persisted row
for `"u"` — `get_or_create_agent("u")` returns the cached live handle, whose
`user_id` field is `"v"`, not the requested `"u"`. -/
theorem get_or_create_agent_user_id_mismatch :
    (stReg2.get_or_create_agent "u" none).1 = some 0 ∧
    (getAgent (stReg2.get_or_create_agent "u" none).2 0).user_id ≠ some "u" := by
  decide

/-- C9 (amended).  Whenever `get_or_create_agent` returns a handle, the
registry entry for `user_id` references that handle.  The returned handle's
`user_id` field equals the requested `user_id` when a handle is provided
(rebound in place) and when a new handle is constructed; but when the cached
live handle is reused it keeps whatever `user_id` it already had. -/
theorem get_or_create_agent_result_spec (st : ArcanSession) (uid : String)
    (provided : Option Nat) (a : Nat) (st1 : ArcanSession)
    (h : st.get_or_create_agent uid provided = (some a, st1)) :
    lookupAgent st1 uid = some a ∧
    (∀ p, provided = some p → p < st.agentHeap.length →
      (getAgent st1 a).user_id = some uid) ∧
    (provided = none → lookupAgent st uid = none →
      (getAgent st1 a).user_id = some uid) ∧
    (∀ a0, provided = none → lookupAgent st uid = some a0 →
      a = a0 ∧ (getAgent st1 a).user_id = (getAgent st a0).user_id) := by
  rcases provided with _ | p
  · rcases hl : lookupAgent st uid with _ | a0 <;>
      rcases hc : chatHistoryOrEmpty st uid with _ | ⟨m, ms⟩ <;>
        simp [ArcanSession.get_or_create_agent, hl, hc, mkArcanAgent] at h <;>
          obtain ⟨rfl, rfl⟩ := h
    · refine ⟨lookupAgent_registrySet _ uid _, ?_, ?_, ?_⟩
      · intro p hp
        cases hp
      · intro _ _
        rw [getAgent_registrySet]
        rw [getAgent_allocAgent]
      · intro a0 _ h0
        cases h0
    · refine ⟨lookupAgent_registrySet _ uid _, ?_, ?_, ?_⟩
      · intro p hp
        cases hp
      · intro _ _
        rw [getAgent_registrySet]
        rw [getAgent_allocAgent]
      · intro a0 _ h0
        cases h0
    · refine ⟨lookupAgent_registrySet _ uid _, ?_, ?_, ?_⟩
      · intro p hp
        cases hp
      · intro _ h0
        cases h0
      · intro a1 _ h0
        injection h0 with h0
        subst h0
        exact ⟨rfl, rfl⟩
    · refine ⟨lookupAgent_registrySet _ uid _, ?_, ?_, ?_⟩
      · intro p hp
        cases hp
      · intro _ h0
        cases h0
      · intro a1 _ h0
        injection h0 with h0
        subst h0
        exact ⟨rfl, rfl⟩
  · simp [ArcanSession.get_or_create_agent] at h
    obtain ⟨rfl, rfl⟩ := h
    refine ⟨lookupAgent_registrySet _ uid _, ?_, ?_, ?_⟩
    · intro q hq hlt
      injection hq with hq
      subst hq
      rw [getAgent_registrySet, getAgent_setAgentUser st p uid hlt]
    · intro h0
      cases h0
    · intro a0 h0
      cases h0

/-- Witness for C9's amended theorem on the provided-handle path at
`stReg0`. -/
theorem get_or_create_agent_result_spec_w :
    lookupAgent stReg1 "u" = some 0 ∧ (getAgent stReg1 0).user_id = some "u" := by
  have h := get_or_create_agent_result_spec stReg0 "u" (some 0) 0 stReg1 (by decide)
  exact ⟨h.1, h.2.1 0 rfl (by decide)⟩

/-- C5 (the code violates the claim).  After one ordinary turn for
`"alice"` — whose agent was default-constructed — the user `"bob"` has no
persisted history and no live handle, yet `get_or_create_agent("bob")`
returns a handle whose `chat_history` is alice's three messages, because the
default `context: list = []` of `ArcanAgent.__init__` is one shared list
object. -/
theorem fresh_user_agent_inherits_shared_context :
    stAliceTurn.chat_history_table = [] ∧
    lookupAgent stAliceTurn "bob" = none ∧
    (stAliceTurn.get_or_create_agent "bob" none).1 = some 1 ∧
    getHeapList (stAliceTurn.get_or_create_agent "bob" none).2
        (getAgent (stAliceTurn.get_or_create_agent "bob" none).2 1).ctxRef
      = [⟨Role.system, "route"⟩, ⟨Role.human, "hi"⟩, ⟨Role.ai, "hello"⟩] := by
  decide

/-- C10 (the code violates the claim).  Alice's and bob's handles were both
constructed without an explicit `context`, so they alias one list object:
before any turn both histories are empty, and one `invoke` on alice's handle
makes bob's `chat_history` non-empty as well. -/
theorem default_context_shared_across_agents :
    (getAgent stBoth 0).ctxRef = (getAgent stBoth 1).ctxRef ∧
    getHeapList stBoth (getAgent stBoth 1).ctxRef = [] ∧
    getHeapList stBothTurn (getAgent stBothTurn 1).ctxRef
      = [⟨Role.system, "route"⟩, ⟨Role.human, "hi"⟩, ⟨Role.ai, "hello"⟩] := by
  decide

end Arcan
